import Mathlib

/-!
Shallow embedding of `stomp_moveit/src/noisy_filters/underconstrained_goal.cpp`
(the underconstrained-goal noisy filter of the STOMP MoveIt planner).

Modelling conventions:
* Eigen vectors and matrices with statically known sizes become functions out
  of `Fin`; `double` becomes `ℚ` (the source only adds, subtracts, multiplies,
  divides and compares, so exact rationals model the intended real arithmetic).
* External collaborators (the robot model's forward kinematics and Jacobian,
  Eigen's `JacobiSVD` and `AngleAxisd`) are parameters of the embedded
  functions: the claims are about this file's code, not about Eigen or MoveIt.
* The C++ `while` loops are embedded as fuel-indexed structural recursion.
  For the IK loop the fuel is exactly the source's iteration budget.  For the
  angle-normalization loop the fuel is `angle.num.natAbs + 1`, which is proved
  sufficient (`fuel_sufficient`, `normalizeAngleGo_range`): with that much
  fuel the loop always exits through its guard, so the embedding computes the
  very value the unbounded source loop computes.
-/

set_option maxHeartbeats 1600000

namespace UCG

/-- Joint-space / twist vectors (`Eigen::VectorXd` with a tracked size). -/
abbrev Vec (n : ℕ) : Type := Fin n → ℚ

/-- Real matrices (`Eigen::MatrixXd` with tracked sizes). -/
abbrev Mat (m n : ℕ) : Type := Matrix (Fin m) (Fin n) ℚ

/-- Number of Cartesian degrees of freedom, `DOF_SIZE` (line 20). -/
def DOF_SIZE : ℕ := 6

/-- The `EPSILON` constant passed to the damped pseudo-inverse (line 21). -/
def EPSILON : ℚ := 1 / 10

/-- The `LAMBDA` constant passed to the damped pseudo-inverse (line 22). -/
def LAMBDA : ℚ := 1 / 100

/-- The exact value of the IEEE-754 double constant `M_PI` used by the
angle-wrapping loop (lines 86-90). -/
def M_PI : ℚ := 884279719003555 / 281474976710656

/-- First conditional assignment of the angle-wrapping loop body (line 88):
`angle = (angle > M_PI) ? (angle - 2*M_PI) : angle`. -/
def normStep1 (angle : ℚ) : ℚ :=
  if angle > M_PI then angle - 2 * M_PI else angle

/-- Second conditional assignment of the angle-wrapping loop body (line 89):
`angle = (angle < -M_PI) ? (angle + 2*M_PI) : angle`. -/
def normStep2 (angle : ℚ) : ℚ :=
  if angle < -M_PI then angle + 2 * M_PI else angle

/-- One full body of the `while` loop at lines 86-90. -/
def normStep (angle : ℚ) : ℚ := normStep2 (normStep1 angle)

/-- Fuel-indexed unfolding of the `while( (angle > M_PI) || (angle < -M_PI) )`
loop (lines 86-90).  The guard of the source loop is tested before each step;
when the fuel runs out the current value is returned. -/
def normalizeAngleGo : ℕ → ℚ → ℚ
  | 0, angle => angle
  | fuel + 1, angle =>
    if angle > M_PI ∨ angle < -M_PI then normalizeAngleGo fuel (normStep angle) else angle

/-- The angle normalization of `computeTwist` (lines 86-90).  The fuel
`angle.num.natAbs + 1` dominates `⌈|angle| / M_PI⌉` (`fuel_sufficient`), which
is proved to make the loop exit through its guard (`normalizeAngleGo_range`),
so this computes the exit value of the source's unbounded loop. -/
def normalizeAngle (angle : ℚ) : ℚ :=
  normalizeAngleGo (angle.num.natAbs + 1) angle

/-- A rigid transform (`Eigen::Affine3d`): translation plus the 3x3 matrix
returned by `.rotation()`. -/
structure Pose where
  translation : Fin 3 → ℚ
  rotation : Mat 3 3
deriving DecidableEq

/-- Model of Eigen's `AngleAxisd` extraction (line 81): from a 3x3 matrix it
produces an angle and an axis.  It is library code, so it is a parameter of
the embedding. -/
abbrev AAExtract : Type := Mat 3 3 → ℚ × (Fin 3 → ℚ)

/-- Relative rotation of `computeTwist` (line 81):
`R = p0.rotation().transpose() * pf.rotation()`. -/
def relRotation (p0 pf : Pose) : Mat 3 3 :=
  p0.rotation.transpose * pf.rotation

/-- The unmasked 6-vector assembled at lines 78-97: entries 0-2 are the
translation difference `pf.translation() - p0.translation()`, entries 3-5 are
`axis * angle` with the axis-angle extraction of the relative rotation and the
angle wrapped into [-M_PI, M_PI]. -/
def rawTwist (aa : AAExtract) (p0 pf : Pose) : Fin 6 → ℚ :=
  fun i =>
    if h : (i : ℕ) < 3 then
      pf.translation ⟨(i : ℕ), h⟩ - p0.translation ⟨(i : ℕ), h⟩
    else
      (aa (relRotation p0 pf)).2 ⟨(i : ℕ) - 3, by have := i.isLt; omega⟩ *
        normalizeAngle (aa (relRotation p0 pf)).1

/-- `computeTwist` (lines 72-101): the assembled 6-vector with every entry
whose `nullity` flag is zero forced to exactly 0 (line 100,
`twist = (nullity == 0).select(0,twist)`). -/
def computeTwist (aa : AAExtract) (p0 pf : Pose) (nullity : Fin 6 → ℤ) : Fin 6 → ℚ :=
  fun i => if nullity i = 0 then 0 else rawTwist aa p0 pf i

/-- The thin singular value decomposition produced by Eigen's
`JacobiSVD(jacb, ComputeThinU | ComputeThinV)` (lines 48-51): `U` is
m x min(m,n), `V` is n x min(m,n), `Sv` the singular values. -/
structure ThinSVD (m n : ℕ) where
  U : Mat m (min m n)
  Sv : Fin (min m n) → ℚ
  V : Mat n (min m n)

/-- Model of Eigen's SVD routine: for every matrix it returns some thin SVD
factorization.  Library code, hence a parameter. -/
def SvdOracle : Type := ∀ (r c : ℕ), Mat r c → ThinSVD r c

/-- Per-singular-value inverse of `calculateDampedPseudoInverse`
(lines 57-67): `1/s` when `|s| > eps`, else the damped `s / (s*s + lambda*lambda)`. -/
def dampedInvSv (eps lambda s : ℚ) : ℚ :=
  if |s| > eps then 1 / s else s / (s * s + lambda * lambda)

/-- `calculateDampedPseudoInverse` (lines 40-70), applied to the SVD factors
delivered by the (modelled) Eigen decomposition:
`jacb_pseudo_inv = V * inv_Sv.asDiagonal() * U.transpose()` (line 69). -/
def calculateDampedPseudoInverse (m n : ℕ) (s : ThinSVD m n) (eps lambda : ℚ) : Mat n m :=
  s.V * Matrix.diagonal (fun i => dampedInvSv eps lambda (s.Sv i)) * s.U.transpose

/-- `reduceJacobian` (lines 24-32): keep the rows listed in `idx`, in order. -/
def reduceJacobian (n : ℕ) (J : Mat 6 n) (idx : List (Fin 6)) : Mat idx.length n :=
  Matrix.of fun r c => J (idx.get r) c

/-- Reduction of the twist to the constrained entries (lines 318-321). -/
def reduceTwist (twist : Fin 6 → ℚ) (idx : List (Fin 6)) : Vec idx.length :=
  fun r => twist (idx.get r)

/-- The constrained-axis index list built at lines 287-293: the indices `i`
with `dof_nullity_(i) != 0`, in increasing order. -/
def constrainedIndices (nullity : Fin 6 → ℤ) : List (Fin 6) :=
  (List.finRange 6).filter (fun i => nullity i != 0)

/-- In-place transform of the Jacobian's rotational rows into tool
coordinates (line 331): `jacb.bottomRows(3) = rot.transpose() * jacb.bottomRows(3)`. -/
def transformJacobian (n : ℕ) (R : Mat 3 3) (J : Mat 6 n) : Mat 6 n :=
  Matrix.of fun r c =>
    if h : (r : ℕ) < 3 then J r c
    else ∑ k : Fin 3,
      R.transpose ⟨(r : ℕ) - 3, by have := r.isLt; omega⟩ k *
        J ⟨(k : ℕ) + 3, by have := k.isLt; omega⟩ c

/-- The configuration members of `UnderconstrainedGoal` consumed by `runIK`,
for a chain with `n` joints. -/
structure GoalCfg (n : ℕ) where
  dof_nullity : Fin 6 → ℤ
  cartesian_convergence_thresholds : Fin 6 → ℚ
  joint_update_rates : Fin n → ℚ
  max_iterations : ℕ

/-- The kinematic-model collaborator: forward kinematics
(`setJointGroupPositions` followed by `getGlobalLinkTransform`, lines 281-282
and 344-345) and the fallible Jacobian query (`getJacobian`, line 324). -/
structure Robot (n : ℕ) where
  fk : Vec n → Pose
  jac : Vec n → Option (Mat 6 n)

/-- Joint change of one iteration (lines 333-338): damped pseudo-inverse of
the reduced Jacobian (with `EPSILON` and `LAMBDA`, line 335) times the
reduced twist. -/
def ikDelta (svdO : SvdOracle) (k n : ℕ) (Jr : Mat k n) (tr : Vec k) : Vec n :=
  (calculateDampedPseudoInverse k n (svdO k n Jr) EPSILON LAMBDA).mulVec tr

/-- Outcome of one pass through the `while` body of `runIK` (lines 302-348). -/
inductive StepOut (n : ℕ) where
  | converged
  | jacFail
  | next (j : Vec n)

/-- One pass through the `runIK` loop body (lines 302-348): compute the
twist, test the strict per-axis convergence check (line 309), on failure of
the Jacobian query return the failure (lines 324-328), otherwise transform
and reduce the Jacobian, apply the damped pseudo-inverse and produce the
updated joint vector `joint_pose + joint_update_rates .* delta_j` (line 341). -/
def ikIteration (aa : AAExtract) (n : ℕ) (rb : Robot n) (svdO : SvdOracle)
    (cfg : GoalCfg n) (goal : Pose) (j : Vec n) : StepOut n :=
  if ∀ i, |computeTwist aa (rb.fk j) goal cfg.dof_nullity i| <
      cfg.cartesian_convergence_thresholds i then
    .converged
  else
    match rb.jac j with
    | none => .jacFail
    | some J =>
      .next (fun i =>
        j i + cfg.joint_update_rates i *
          ikDelta svdO (constrainedIndices cfg.dof_nullity).length n
            (reduceJacobian n (transformJacobian n (rb.fk j).rotation J)
              (constrainedIndices cfg.dof_nullity))
            (reduceTwist (computeTwist aa (rb.fk j) goal cfg.dof_nullity)
              (constrainedIndices cfg.dof_nullity)) i)

/-- The `while(iteration_count < max_iterations_)` loop of `runIK`
(lines 300-348), with the remaining budget as fuel and the source's
`iteration_count` carried along.  Returns (converged, joint_pose,
iteration_count). -/
def runIKGo (aa : AAExtract) (n : ℕ) (rb : Robot n) (svdO : SvdOracle)
    (cfg : GoalCfg n) (goal : Pose) : ℕ → Vec n → ℕ → Bool × Vec n × ℕ
  | 0, j, c => (false, j, c)
  | fuel + 1, j, c =>
    match ikIteration aa n rb svdO cfg goal j with
    | .converged => (true, j, c)
    | .jacFail => (false, j, c)
    | .next j2 => runIKGo aa n rb svdO cfg goal fuel j2 (c + 1)

/-- `UnderconstrainedGoal::runIK` (lines 271-353): iterate from the initial
joint vector with budget `max_iterations_`; the returned Boolean is the
`converged` flag (also false on Jacobian failure), the returned vector is the
output parameter `joint_pose`, the returned number the final `iteration_count`. -/
def runIK (aa : AAExtract) (n : ℕ) (rb : Robot n) (svdO : SvdOracle)
    (cfg : GoalCfg n) (goal : Pose) (init : Vec n) : Bool × Vec n × ℕ :=
  runIKGo aa n rb svdO cfg goal cfg.max_iterations init 0

/-- Result of `UnderconstrainedGoal::filter`: its Boolean return value, the
`filtered` output flag, and the (possibly updated) waypoint matrix. -/
structure FilterOut (n T : ℕ) where
  ret : Bool
  filtered : Bool
  parameters : Matrix (Fin n) (Fin (T + 1)) ℚ
deriving DecidableEq

/-- The read of `parameters.rightCols(1)` (line 255): the last waypoint. -/
def lastColumn (n T : ℕ) (P : Matrix (Fin n) (Fin (T + 1)) ℚ) : Vec n :=
  fun i => P i (Fin.last T)

/-- `UnderconstrainedGoal::filter` (lines 245-269) on a waypoint matrix with
`T+1` columns: run IK from the last waypoint; on failure set `filtered` to
false and return false leaving `parameters` untouched (lines 258-263); on
success set `filtered` to true, overwrite the last column with the solved
joint vector and return true (lines 265-268). -/
def filter (aa : AAExtract) (n T : ℕ) (rb : Robot n) (svdO : SvdOracle)
    (cfg : GoalCfg n) (goal : Pose)
    (parameters : Matrix (Fin n) (Fin (T + 1)) ℚ) : FilterOut n T :=
  if (runIK aa n rb svdO cfg goal (lastColumn n T parameters)).1 then
    { ret := true, filtered := true,
      parameters := Matrix.of fun i j =>
        if j = Fin.last T then (runIK aa n rb svdO cfg goal (lastColumn n T parameters)).2.1 i
        else parameters i j }
  else
    { ret := false, filtered := false, parameters := parameters }

/-- Modelled from the spec: the surrounding trajectory pipeline (STOMP task
and batch loop, repository code not under src/) treats a false Boolean return
from a noisy filter's `filter` call as a hard pipeline error that aborts the
planning attempt, whereas the `filtered` output flag merely records whether
the rollout was modified (spec sections 4.5 and 7: soft per-rollout failures
are reported through `filtered`, hard errors through the failure return). -/
def hardPipelineError (n T : ℕ) (F : FilterOut n T) : Prop :=
  F.ret = false

/-- An XmlRpc value, restricted to the shapes `configure` inspects:
integers, doubles and arrays. -/
inductive XVal where
  | int : ℤ → XVal
  | dbl : ℚ → XVal
  | arr : List XVal → XVal

/-- `static_cast<int>` on an XmlRpc array element: succeeds only on an
integer value, every other type throws `XmlRpcException` (modelled as
`none`). -/
def castInt (v : XVal) : Option ℤ :=
  match v with
  | .int i => some i
  | _ => none

/-- `static_cast<double>` on an XmlRpc array element: succeeds only on a
double value, every other type throws (modelled as `none`). -/
def castDbl (v : XVal) : Option ℚ :=
  match v with
  | .dbl q => some q
  | _ => none

/-- `static_cast<int>(params["max_ik_iterations"])` (line 169): a missing key
yields an invalid XmlRpc value which the cast silently initializes to the
integer 0; a present non-integer value throws. -/
def castIntTop (v : Option XVal) : Option ℤ :=
  match v with
  | none => some 0
  | some (.int i) => some i
  | some _ => none

/-- A configuration structure: each recognized key either absent or bound to
a value.  (`params["key"]` on a struct yields an invalid value for a missing
key, whose type then fails the `TypeArray` test.) -/
structure XConfig where
  constrained_dofs : Option XVal
  cartesian_convergence : Option XVal
  joint_update_rates : Option XVal
  max_ik_iterations : Option XVal

/-- The `getType() == TypeArray` test combined with element access: an
absent key or a non-array value is no array. -/
def asArray (v : Option XVal) : Option (List XVal) :=
  match v with
  | some (.arr l) => some l
  | _ => none

/-- The stored configuration members of `UnderconstrainedGoal` touched by
`configure` (lines 150-169), as resizable storage. -/
structure GoalState where
  dof_nullity : List ℤ
  cartesian_convergence_thresholds : List ℚ
  joint_update_rates : List ℚ
  max_iterations : ℤ
deriving DecidableEq

/-- Eigen `resize(n)`: a resize to the current size keeps the stored data;
a genuine size change discards it (fresh storage, modelled with `d` in place
of Eigen's uninitialized entries). -/
def resizeTo {α : Type} (xs : List α) (nn : ℕ) (d : α) : List α :=
  if xs.length = nn then xs else List.replicate nn d

/-- One of the element-copy loops of `configure` (lines 151-154, 157-160,
163-166): cast each array element in order and store it at its index; a
throwing cast aborts the loop, keeping the elements already written.  A write
past the end of the storage (possible because the length checks only reject
arrays that are too short) is out-of-bounds in the source; it is modelled as
a no-op on the stored vector. -/
def writeCast {β : Type} (cst : XVal → Option β) : List XVal → ℕ → List β → List β × Bool
  | [], _, st => (st, true)
  | x :: xs, i, st =>
    match cst x with
    | some v => writeCast cst xs (i + 1) (st.set i v)
    | none => (st, false)

/-- `UnderconstrainedGoal::configure` (lines 128-178).  The three array
parameters are fetched and validated together (lines 139-148: each must be an
array, `constrained_dofs` and `cartesian_convergence` of size at least
`DOF_SIZE`, `joint_update_rates` nonempty); then each member is resized and
filled elementwise; a throwing cast is caught at line 171 and turns into a
false return, with every member written so far retained. -/
def configure (st : GoalState) (c : XConfig) : Bool × GoalState :=
  match asArray c.constrained_dofs, asArray c.cartesian_convergence, asArray c.joint_update_rates with
  | some dofA, some thrA, some ratA =>
    if dofA.length < DOF_SIZE ∨ thrA.length < DOF_SIZE ∨ ratA.length = 0 then
      (false, st)
    else
      match writeCast castInt dofA 0 (resizeTo st.dof_nullity DOF_SIZE 0) with
      | (dn, false) => (false, { st with dof_nullity := dn })
      | (dn, true) =>
        match writeCast castDbl thrA 0 (resizeTo st.cartesian_convergence_thresholds DOF_SIZE 0) with
        | (cc, false) => (false, { st with dof_nullity := dn, cartesian_convergence_thresholds := cc })
        | (cc, true) =>
          match writeCast castDbl ratA 0 (resizeTo st.joint_update_rates ratA.length 0) with
          | (jr, false) =>
            (false,
              { st with dof_nullity := dn, cartesian_convergence_thresholds := cc,
                        joint_update_rates := jr })
          | (jr, true) =>
            match castIntTop c.max_ik_iterations with
            | none =>
              (false,
                { st with dof_nullity := dn, cartesian_convergence_thresholds := cc,
                          joint_update_rates := jr })
            | some m =>
              (true,
                { st with dof_nullity := dn, cartesian_convergence_thresholds := cc,
                          joint_update_rates := jr, max_iterations := m })
  | _, _, _ => (false, st)

/-- The combined array-validation condition of lines 139-148 as a Boolean:
true iff all three parameters are arrays of acceptable size. -/
def arraysValid (c : XConfig) : Bool :=
  match asArray c.constrained_dofs, asArray c.cartesian_convergence, asArray c.joint_update_rates with
  | some dofA, some thrA, some ratA =>
    if dofA.length < DOF_SIZE ∨ thrA.length < DOF_SIZE ∨ ratA.length = 0 then false else true
  | _, _, _ => false

/-! Concrete instances used by witnesses and counterexamples. -/

/-- Trivial angle-axis extraction: angle 0, zero axis. -/
def aa0 : AAExtract := fun _ => (0, fun _ => 0)

/-- The identity pose. -/
def pose0 : Pose := { translation := fun _ => 0, rotation := 1 }

/-- A one-joint robot whose tool sits at `pose0` for every joint value and
whose Jacobian query always succeeds with the zero matrix. -/
def rb0 : Robot 1 := { fk := fun _ => pose0, jac := fun _ => some 0 }

/-- An SVD oracle returning all-zero factors. -/
def svd0 : SvdOracle := fun _ _ _ => { U := 0, Sv := fun _ => 0, V := 0 }

/-- The zero initial joint vector. -/
def init0 : Vec 1 := fun _ => 0

/-- A 1 x 1 all-zero waypoint matrix. -/
def params0 : Matrix (Fin 1) (Fin 1) ℚ := Matrix.of fun _ _ => 0

/-- Fully constrained configuration with a zero iteration budget. -/
def cfgZero : GoalCfg 1 :=
  { dof_nullity := fun _ => 1, cartesian_convergence_thresholds := fun _ => 1,
    joint_update_rates := fun _ => 1, max_iterations := 0 }

/-- Fully constrained configuration with all-zero (non-negative) convergence
thresholds and budget 1. -/
def cfgThrZero : GoalCfg 1 :=
  { dof_nullity := fun _ => 1, cartesian_convergence_thresholds := fun _ => 0,
    joint_update_rates := fun _ => 1, max_iterations := 1 }

/-- Fully constrained configuration with strictly positive thresholds and
budget 1. -/
def cfgPos : GoalCfg 1 :=
  { dof_nullity := fun _ => 1, cartesian_convergence_thresholds := fun _ => 1,
    joint_update_rates := fun _ => 1, max_iterations := 1 }

/-- A previously configured stored state (all-zero mask and thresholds, one
update rate, budget 5). -/
def st0 : GoalState :=
  { dof_nullity := List.replicate 6 0, cartesian_convergence_thresholds := List.replicate 6 0,
    joint_update_rates := [1], max_iterations := 5 }

/-- A `constrained_dofs` array with seven integer entries. -/
def arr7int1 : XVal := .arr (List.replicate 7 (.int 1))

/-- A six-entry integer array. -/
def arr6int1 : XVal := .arr (List.replicate 6 (.int 1))

/-- A six-entry double array. -/
def arr6dbl0 : XVal := .arr (List.replicate 6 (.dbl 0))

/-- A one-entry double array. -/
def arr1dbl1 : XVal := .arr [.dbl 1]

/-- Configuration whose `constrained_dofs` has 7 entries (one too many) and
is otherwise well-formed. -/
def cOverlong : XConfig :=
  { constrained_dofs := some arr7int1, cartesian_convergence := some arr6dbl0,
    joint_update_rates := some arr1dbl1, max_ik_iterations := some (.int 5) }

/-- Configuration whose `constrained_dofs` passes the size check but whose
sixth element is a double, so the elementwise integer cast throws after five
elements were already stored. -/
def cBadElem : XConfig :=
  { constrained_dofs := some (.arr [.int 1, .int 1, .int 1, .int 1, .int 1, .dbl (1/2)]),
    cartesian_convergence := some arr6dbl0,
    joint_update_rates := some arr1dbl1, max_ik_iterations := some (.int 5) }

/-- Well-formed configuration with `max_ik_iterations` equal to 0. -/
def cZeroIter : XConfig :=
  { constrained_dofs := some arr6int1, cartesian_convergence := some arr6dbl0,
    joint_update_rates := some arr1dbl1, max_ik_iterations := some (.int 0) }

/-- Configuration with every key missing. -/
def cMissing : XConfig :=
  { constrained_dofs := none, cartesian_convergence := none,
    joint_update_rates := none, max_ik_iterations := none }

/-! Angle-normalization lemmas: the fuel `⌈|angle| / M_PI⌉` makes the
embedded loop reach the guard-false exit, hence the wrapped angle lies in
the closed interval [-M_PI, M_PI]. -/

theorem mpi_pos : (0 : ℚ) < M_PI := by norm_num [M_PI]

theorem normStep_of_gt {a : ℚ} (h : M_PI < a) : normStep a = a - 2 * M_PI := by
  have hp := mpi_pos
  unfold normStep normStep2 normStep1
  rw [if_pos h, if_neg (by linarith)]

theorem normStep_of_lt {a : ℚ} (h : a < -M_PI) : normStep a = a + 2 * M_PI := by
  have hp := mpi_pos
  unfold normStep normStep2 normStep1
  rw [if_neg (show ¬ a > M_PI by simp only [gt_iff_lt, not_lt]; linarith), if_pos h]

theorem ceil_sub_lt (a : ℚ) (h : M_PI < a) :
    Nat.ceil (|a - 2 * M_PI| / M_PI) < Nat.ceil (|a| / M_PI) := by
  have hp := mpi_pos
  have ha : 0 < a := lt_trans hp h
  have hmain : (1 : ℕ) < Nat.ceil (|a| / M_PI) := by
    rw [Nat.lt_ceil, abs_of_pos ha, Nat.cast_one, lt_div_iff₀ hp, one_mul]
    exact h
  rcases le_or_lt 0 (a - 2 * M_PI) with hge | hlt
  · rw [abs_of_nonneg hge, Nat.lt_ceil, abs_of_pos ha]
    have h1 : (Nat.ceil ((a - 2 * M_PI) / M_PI) : ℚ) < (a - 2 * M_PI) / M_PI + 1 :=
      Nat.ceil_lt_add_one (div_nonneg (by linarith) hp.le)
    have h4 : (a - 2 * M_PI) / M_PI + 1 < a / M_PI := by
      rw [lt_div_iff₀ hp, add_mul, one_mul, div_mul_cancel₀ _ (ne_of_gt hp)]
      linarith
    linarith
  · have hub : Nat.ceil (|a - 2 * M_PI| / M_PI) ≤ 1 := by
      rw [Nat.ceil_le, Nat.cast_one, div_le_one hp, abs_of_neg hlt]
      linarith
    omega

theorem ceil_add_lt (a : ℚ) (h : a < -M_PI) :
    Nat.ceil (|a + 2 * M_PI| / M_PI) < Nat.ceil (|a| / M_PI) := by
  have h2 : M_PI < -a := by linarith
  have hmain := ceil_sub_lt (-a) h2
  have e0 : -a - 2 * M_PI = -(a + 2 * M_PI) := by ring
  rw [e0, abs_neg, abs_neg] at hmain
  exact hmain

theorem ceil_normStep_lt {a : ℚ} (h : a > M_PI ∨ a < -M_PI) :
    Nat.ceil (|normStep a| / M_PI) < Nat.ceil (|a| / M_PI) := by
  rcases h with h | h
  · rw [normStep_of_gt h]; exact ceil_sub_lt a h
  · rw [normStep_of_lt h]; exact ceil_add_lt a h

theorem normalizeAngleGo_range :
    ∀ (fuel : ℕ) (a : ℚ), Nat.ceil (|a| / M_PI) ≤ fuel →
      -M_PI ≤ normalizeAngleGo fuel a ∧ normalizeAngleGo fuel a ≤ M_PI := by
  intro fuel
  induction fuel with
  | zero =>
    intro a h
    have hp := mpi_pos
    have h0 : |a| / M_PI ≤ 0 := Nat.ceil_eq_zero.1 (Nat.le_zero.1 h)
    have habs : |a| ≤ 0 := by
      by_contra hc
      push_neg at hc
      have := div_pos hc hp
      linarith
    have ha : a = 0 := abs_nonpos_iff.1 habs
    rw [ha]
    unfold normalizeAngleGo
    constructor <;> linarith
  | succ f ih =>
    intro a h
    unfold normalizeAngleGo
    by_cases hc : a > M_PI ∨ a < -M_PI
    · rw [if_pos hc]
      exact ih (normStep a) (by have := ceil_normStep_lt hc; omega)
    · rw [if_neg hc]
      push_neg at hc
      exact ⟨hc.2, hc.1⟩

theorem fuel_sufficient (q : ℚ) : Nat.ceil (|q| / M_PI) ≤ q.num.natAbs + 1 := by
  have hpi1 : (1 : ℚ) ≤ M_PI := by norm_num [M_PI]
  have hdenpos : (0 : ℚ) < (q.den : ℚ) := by exact_mod_cast q.den_pos
  have hden : (1 : ℚ) ≤ (q.den : ℚ) := by exact_mod_cast q.den_pos
  have h0 : |q| = (q.num.natAbs : ℚ) / (q.den : ℚ) := by
    conv_lhs => rw [← Rat.num_div_den q]
    rw [abs_div, Int.cast_natAbs, abs_of_pos hdenpos, Int.cast_abs]
  have habs : |q| ≤ (q.num.natAbs : ℚ) := by
    rw [h0]
    exact div_le_self (by positivity) hden
  have h2 : |q| / M_PI ≤ |q| := div_le_self (abs_nonneg q) hpi1
  rw [Nat.ceil_le]
  push_cast
  linarith

theorem normalizeAngle_range (a : ℚ) :
    -M_PI ≤ normalizeAngle a ∧ normalizeAngle a ≤ M_PI :=
  normalizeAngleGo_range _ a (fuel_sufficient a)

theorem normalizeAngle_of_mem {a : ℚ} (h1 : -M_PI ≤ a) (h2 : a ≤ M_PI) :
    normalizeAngle a = a := by
  unfold normalizeAngle
  simp only [normalizeAngleGo]
  rw [if_neg]
  push_neg
  exact ⟨h2, h1⟩

theorem normalizeAngle_zero : normalizeAngle 0 = 0 :=
  normalizeAngle_of_mem (by linarith [mpi_pos]) (le_of_lt mpi_pos)

/-! Control-flow lemmas for the IK loop. -/

theorem runIKGo_zero (aa : AAExtract) (n : ℕ) (rb : Robot n) (svdO : SvdOracle)
    (cfg : GoalCfg n) (goal : Pose) (j : Vec n) (c : ℕ) :
    runIKGo aa n rb svdO cfg goal 0 j c = (false, j, c) := rfl

theorem runIKGo_succ (aa : AAExtract) (n : ℕ) (rb : Robot n) (svdO : SvdOracle)
    (cfg : GoalCfg n) (goal : Pose) (fuel : ℕ) (j : Vec n) (c : ℕ) :
    runIKGo aa n rb svdO cfg goal (fuel + 1) j c =
      match ikIteration aa n rb svdO cfg goal j with
      | .converged => (true, j, c)
      | .jacFail => (false, j, c)
      | .next j2 => runIKGo aa n rb svdO cfg goal fuel j2 (c + 1) := rfl

theorem ikIteration_jacFail (aa : AAExtract) (n : ℕ) (rb : Robot n) (svdO : SvdOracle)
    (cfg : GoalCfg n) (goal : Pose) (j : Vec n)
    (h : ikIteration aa n rb svdO cfg goal j = .jacFail) : rb.jac j = none := by
  unfold ikIteration at h
  split at h
  · exact StepOut.noConfusion h
  · split at h
    · assumption
    · exact StepOut.noConfusion h

theorem runIKGo_count_le (aa : AAExtract) (n : ℕ) (rb : Robot n) (svdO : SvdOracle)
    (cfg : GoalCfg n) (goal : Pose) :
    ∀ (fuel : ℕ) (j : Vec n) (c : ℕ),
      (runIKGo aa n rb svdO cfg goal fuel j c).2.2 ≤ c + fuel := by
  intro fuel
  induction fuel with
  | zero =>
    intro j c
    exact Nat.le_add_right c 0
  | succ f ih =>
    intro j c
    rw [runIKGo_succ]
    cases hE : ikIteration aa n rb svdO cfg goal j with
    | converged => simp only []; omega
    | jacFail => simp only []; omega
    | next j2 =>
      simp only []
      have := ih j2 (c + 1)
      omega

theorem runIKGo_exhaust (aa : AAExtract) (n : ℕ) (rb : Robot n) (svdO : SvdOracle)
    (cfg : GoalCfg n) (goal : Pose) (hjac : ∀ v, (rb.jac v).isSome) :
    ∀ (fuel : ℕ) (j : Vec n) (c : ℕ),
      (runIKGo aa n rb svdO cfg goal fuel j c).1 = false →
      (runIKGo aa n rb svdO cfg goal fuel j c).2.2 = c + fuel := by
  intro fuel
  induction fuel with
  | zero =>
    intro j c _
    rfl
  | succ f ih =>
    intro j c h
    rw [runIKGo_succ] at h ⊢
    cases hE : ikIteration aa n rb svdO cfg goal j with
    | converged => rw [hE] at h; simp at h
    | jacFail =>
      have hn := ikIteration_jacFail aa n rb svdO cfg goal j hE
      have hs := hjac j
      rw [hn] at hs
      simp at hs
    | next j2 =>
      rw [hE] at h
      have h2 : (runIKGo aa n rb svdO cfg goal f j2 (c + 1)).1 = false := h
      have := ih j2 (c + 1) h2
      show (runIKGo aa n rb svdO cfg goal f j2 (c + 1)).2.2 = c + (f + 1)
      omega

/-- C5: for every input the IK loop performs at most `max_iterations_`
joint-update steps (the returned iteration count is bounded by the budget);
and whenever the Jacobian collaborator always succeeds, a false (non-converged)
result means the budget was fully exhausted: the count equals
`max_iterations_`, the result is the ordinary Boolean `converged` flag, and
the partially updated joint vector is the returned vector. -/
theorem c5_iteration_budget (aa : AAExtract) (n : ℕ) (rb : Robot n) (svdO : SvdOracle)
    (cfg : GoalCfg n) (goal : Pose) (init : Vec n) :
    (runIK aa n rb svdO cfg goal init).2.2 ≤ cfg.max_iterations ∧
    ((∀ v, (rb.jac v).isSome) → (runIK aa n rb svdO cfg goal init).1 = false →
      (runIK aa n rb svdO cfg goal init).2.2 = cfg.max_iterations) := by
  constructor
  · have := runIKGo_count_le aa n rb svdO cfg goal cfg.max_iterations init 0
    unfold runIK
    omega
  · intro hjac h
    have := runIKGo_exhaust aa n rb svdO cfg goal hjac cfg.max_iterations init 0 h
    unfold runIK at this ⊢
    omega

/-- Witness for C5 at a concrete instance: with an always-succeeding Jacobian
and budget 0 the non-converged run reports exactly the full budget. -/
theorem c5_witness : (runIK aa0 1 rb0 svd0 cfgZero pose0 init0).2.2 = cfgZero.max_iterations :=
  (c5_iteration_budget aa0 1 rb0 svd0 cfgZero pose0 init0).2 (fun _ => rfl) rfl

/-- C10: `configure` accepts `max_ik_iterations = 0` without any positivity
check, and with a zero budget `runIK` returns non-convergence (false) with the
initial joint vector and iteration count 0 for every goal pose and initial
joint vector, without ever evaluating the convergence check. -/
theorem c10_zero_budget :
    (configure st0 cZeroIter).1 = true ∧
    (configure st0 cZeroIter).2.max_iterations = 0 ∧
    ∀ (aa : AAExtract) (n : ℕ) (rb : Robot n) (svdO : SvdOracle) (cfg : GoalCfg n)
      (goal : Pose) (init : Vec n),
      cfg.max_iterations = 0 → runIK aa n rb svdO cfg goal init = (false, init, 0) := by
  refine ⟨rfl, rfl, ?_⟩
  intro aa n rb svdO cfg goal init h
  unfold runIK
  rw [h]
  exact runIKGo_zero aa n rb svdO cfg goal init 0

/-- Witness for C10: the zero-budget configuration at a concrete robot, goal
and initial joint vector. -/
theorem c10_witness : runIK aa0 1 rb0 svd0 cfgZero pose0 init0 = (false, init0, 0) :=
  c10_zero_budget.2.2 aa0 1 rb0 svd0 cfgZero pose0 init0 rfl

/-- C1, counterexample: a solve in which the IK Iterator fails (zero
iteration budget, hence `IterationBudgetExhausted`); `filter` does set
`filtered` to false, but it also returns false, which is the hard
pipeline-error channel — refuting the claim that the failure is signalled
only as a soft no-modification outcome that never aborts the batch. -/
theorem c1_counterexample :
    (runIK aa0 1 rb0 svd0 cfgZero pose0 (lastColumn 1 0 params0)).1 = false ∧
    (filter aa0 1 0 rb0 svd0 cfgZero pose0 params0).filtered = false ∧
    hardPipelineError 1 0 (filter aa0 1 0 rb0 svd0 cfgZero pose0 params0) :=
  ⟨rfl, rfl, rfl⟩

/-- C1, amended: when the IK Iterator fails, `filter` sets `filtered` to
false and leaves the waypoint matrix unmodified, but it also returns false —
the hard-error channel of the filter interface — so the failure is reported
to the pipeline as a filter error rather than as a soft per-rollout
no-modification outcome. -/
theorem c1_failure_behavior (aa : AAExtract) (n T : ℕ) (rb : Robot n) (svdO : SvdOracle)
    (cfg : GoalCfg n) (goal : Pose) (P : Matrix (Fin n) (Fin (T + 1)) ℚ)
    (h : (runIK aa n rb svdO cfg goal (lastColumn n T P)).1 = false) :
    filter aa n T rb svdO cfg goal P = { ret := false, filtered := false, parameters := P } := by
  unfold filter
  rw [h]
  rfl

/-- Witness for the amended C1 at a concrete failing solve. -/
theorem c1_witness :
    filter aa0 1 0 rb0 svd0 cfgZero pose0 params0 =
      { ret := false, filtered := false, parameters := params0 } :=
  c1_failure_behavior aa0 1 0 rb0 svd0 cfgZero pose0 params0 rfl

/-- C7: for every constraint mask and every pair of poses, the twist returned
by `computeTwist` is exactly 0 at every axis whose mask entry is zero,
regardless of the value computed for that axis. -/
theorem c7_mask_zeroes (aa : AAExtract) (p0 pf : Pose) (nullity : Fin 6 → ℤ) (i : Fin 6)
    (h : nullity i = 0) : computeTwist aa p0 pf nullity i = 0 := by
  unfold computeTwist
  rw [if_pos h]

/-- Witness for C7 at a concrete mask, pose pair and axis. -/
theorem c7_witness : computeTwist aa0 pose0 pose0 (fun _ => 0) 0 = 0 :=
  c7_mask_zeroes aa0 pose0 pose0 (fun _ => 0) 0 rfl

/-- C8: for every pair of poses, each rotation entry of the twist (before
masking) is the extracted relative-rotation axis component scaled by the
angle normalized into the closed range [-M_PI, M_PI], so the angle magnitude
never exceeds M_PI. -/
theorem c8_rotation_normalized (aa : AAExtract) (p0 pf : Pose) (nullity : Fin 6 → ℤ)
    (i : Fin 6) (h3 : 3 ≤ (i : ℕ)) (hm : nullity i ≠ 0) :
    computeTwist aa p0 pf nullity i =
      (aa (relRotation p0 pf)).2 ⟨(i : ℕ) - 3, by have := i.isLt; omega⟩ *
        normalizeAngle (aa (relRotation p0 pf)).1 ∧
    -M_PI ≤ normalizeAngle (aa (relRotation p0 pf)).1 ∧
    normalizeAngle (aa (relRotation p0 pf)).1 ≤ M_PI := by
  refine ⟨?_, (normalizeAngle_range _).1, (normalizeAngle_range _).2⟩
  unfold computeTwist rawTwist
  rw [if_neg hm, dif_neg (by omega : ¬ (i : ℕ) < 3)]

/-- Witness for C8: the wrapped angle of a concrete extraction lies in
[-M_PI, M_PI]. -/
theorem c8_witness :
    -M_PI ≤ normalizeAngle (aa0 (relRotation pose0 pose0)).1 ∧
    normalizeAngle (aa0 (relRotation pose0 pose0)).1 ≤ M_PI :=
  ⟨(c8_rotation_normalized aa0 pose0 pose0 (fun _ => 1) 3 (by decide) (by decide)).2.1,
   (c8_rotation_normalized aa0 pose0 pose0 (fun _ => 1) 3 (by decide) (by decide)).2.2⟩

/-- C6: the damped pseudo-inverse built from any thin SVD `J = U Σ Vᵗ` is
entrywise `V diag(invΣ) Uᵗ`, where a singular value with `|σ| > epsilon`
contributes `1/σ` and any other contributes `σ/(σ² + λ²)`; the constants are
`EPSILON = 0.1` and `LAMBDA = 0.01`, and the joint-delta computation of the
IK loop invokes the damped pseudo-inverse with exactly those constants. -/
theorem c6_damped_pseudo_inverse :
    (∀ (m n : ℕ) (s : ThinSVD m n) (i : Fin n) (j : Fin m),
      calculateDampedPseudoInverse m n s EPSILON LAMBDA i j =
        ∑ k, s.V i k *
          (if |s.Sv k| > 1 / 10 then 1 / s.Sv k
           else s.Sv k / (s.Sv k * s.Sv k + 1 / 100 * (1 / 100))) * s.U j k) ∧
    EPSILON = 1 / 10 ∧ LAMBDA = 1 / 100 ∧
    (∀ (svdO : SvdOracle) (k n : ℕ) (Jr : Mat k n) (tr : Vec k),
      ikDelta svdO k n Jr tr =
        (calculateDampedPseudoInverse k n (svdO k n Jr) EPSILON LAMBDA).mulVec tr) := by
  refine ⟨?_, rfl, rfl, fun _ _ _ _ _ => rfl⟩
  intro m n s i j
  unfold calculateDampedPseudoInverse
  rw [Matrix.mul_apply]
  refine Finset.sum_congr rfl (fun k _ => ?_)
  rw [Matrix.mul_diagonal, Matrix.transpose_apply]
  unfold dampedInvSv EPSILON LAMBDA
  rfl

/-- C9: `filter` touches only the last column of the waypoint matrix.  On
failure the matrix is returned unchanged; on success the last column is
overwritten with the solved joint vector and every other column is
unchanged; and the whole outcome depends on the input matrix only through
its last column. -/
theorem c9_frame (aa : AAExtract) (n T : ℕ) (rb : Robot n) (svdO : SvdOracle)
    (cfg : GoalCfg n) (goal : Pose) (P : Matrix (Fin n) (Fin (T + 1)) ℚ) :
    ((filter aa n T rb svdO cfg goal P).ret = false →
      (filter aa n T rb svdO cfg goal P).parameters = P) ∧
    ((filter aa n T rb svdO cfg goal P).ret = true →
      (∀ i, (filter aa n T rb svdO cfg goal P).parameters i (Fin.last T) =
        (runIK aa n rb svdO cfg goal (lastColumn n T P)).2.1 i) ∧
      (∀ i (jc : Fin (T + 1)), jc ≠ Fin.last T →
        (filter aa n T rb svdO cfg goal P).parameters i jc = P i jc)) ∧
    (∀ Q : Matrix (Fin n) (Fin (T + 1)) ℚ, (∀ i, P i (Fin.last T) = Q i (Fin.last T)) →
      (filter aa n T rb svdO cfg goal Q).ret = (filter aa n T rb svdO cfg goal P).ret ∧
      (filter aa n T rb svdO cfg goal Q).filtered = (filter aa n T rb svdO cfg goal P).filtered ∧
      ∀ i, (filter aa n T rb svdO cfg goal Q).parameters i (Fin.last T) =
        (filter aa n T rb svdO cfg goal P).parameters i (Fin.last T)) := by
  cases hr : (runIK aa n rb svdO cfg goal (lastColumn n T P)).1 with
  | false =>
    have hF : filter aa n T rb svdO cfg goal P
        = { ret := false, filtered := false, parameters := P } := by
      unfold filter
      rw [hr]
      rfl
    refine ⟨fun _ => by rw [hF], fun htrue => ?_, fun Q hq => ?_⟩
    · rw [hF] at htrue
      exact absurd htrue (by simp)
    · have hLC : lastColumn n T Q = lastColumn n T P := funext fun i => (hq i).symm
      have hFQ : filter aa n T rb svdO cfg goal Q
          = { ret := false, filtered := false, parameters := Q } := by
        unfold filter
        rw [hLC, hr]
        rfl
      rw [hF, hFQ]
      exact ⟨rfl, rfl, fun i => (hq i).symm⟩
  | true =>
    have hF : filter aa n T rb svdO cfg goal P
        = { ret := true, filtered := true,
            parameters := Matrix.of fun i j =>
              if j = Fin.last T then (runIK aa n rb svdO cfg goal (lastColumn n T P)).2.1 i
              else P i j } := by
      unfold filter
      rw [hr]
      rfl
    refine ⟨fun hfalse => ?_, fun _ => ⟨fun i => ?_, fun i jc hne => ?_⟩, fun Q hq => ?_⟩
    · rw [hF] at hfalse
      exact absurd hfalse (by simp)
    · rw [hF]
      simp [Matrix.of_apply]
    · rw [hF]
      simp [Matrix.of_apply, hne]
    · have hLC : lastColumn n T Q = lastColumn n T P := funext fun i => (hq i).symm
      have hFQ : filter aa n T rb svdO cfg goal Q
          = { ret := true, filtered := true,
              parameters := Matrix.of fun i j =>
                if j = Fin.last T then (runIK aa n rb svdO cfg goal (lastColumn n T P)).2.1 i
                else Q i j } := by
        unfold filter
        rw [hLC, hr]
        rfl
      rw [hF, hFQ]
      refine ⟨rfl, rfl, fun i => ?_⟩
      simp [Matrix.of_apply]

/-- Witness for C9 at a concrete failing solve: the waypoint matrix comes
back unchanged. -/
theorem c9_witness :
    (filter aa0 1 0 rb0 svd0 cfgZero pose0 params0).parameters = params0 :=
  (c9_frame aa0 1 0 rb0 svd0 cfgZero pose0 params0).1 rfl

/-- Twist of a pose against itself: when the rotation part is orthonormal
(`Rᵀ R = 1`) and the extraction returns angle 0 on the identity, every entry
is exactly 0. -/
theorem computeTwist_self (aa : AAExtract) (p : Pose) (nullity : Fin 6 → ℤ)
    (horth : p.rotation.transpose * p.rotation = 1) (haa : (aa 1).1 = 0) (i : Fin 6) :
    computeTwist aa p p nullity i = 0 := by
  unfold computeTwist rawTwist relRotation
  rw [horth, haa]
  by_cases hm : nullity i = 0
  · rw [if_pos hm]
  · rw [if_neg hm]
    by_cases h3 : (i : ℕ) < 3
    · rw [dif_pos h3, sub_self]
    · rw [dif_neg h3, normalizeAngle_zero, mul_zero]

/-- C4, counterexample: a valid configuration in the claim's sense
(thresholds all 0, hence non-negative; iteration budget 1, hence positive)
and an initial joint vector whose forward-kinematics pose equals the goal
exactly, on which the IK Iterator nevertheless does NOT converge in 0
iterations (the convergence comparison is strict, so a zero twist never beats
a zero threshold): it returns false after a full update step and the filter
reports filtered = false. -/
theorem c4_counterexample :
    rb0.fk init0 = pose0 ∧
    (runIK aa0 1 rb0 svd0 cfgThrZero pose0 init0).1 = false ∧
    (runIK aa0 1 rb0 svd0 cfgThrZero pose0 init0).2.2 = 1 ∧
    (filter aa0 1 0 rb0 svd0 cfgThrZero pose0 params0).filtered = false := by
  have htw : ∀ i, computeTwist aa0 (rb0.fk init0) pose0 cfgThrZero.dof_nullity i = 0 :=
    fun i => computeTwist_self aa0 pose0 cfgThrZero.dof_nullity
      (by simp [pose0]) rfl i
  have hstep : ∃ j2, ikIteration aa0 1 rb0 svd0 cfgThrZero pose0 init0 = .next j2 := by
    unfold ikIteration
    rw [if_neg]
    · exact ⟨_, rfl⟩
    · intro hAll
      have h0 := hAll 0
      rw [htw 0] at h0
      simp [cfgThrZero] at h0
  obtain ⟨j2, hs⟩ := hstep
  have hrun : runIK aa0 1 rb0 svd0 cfgThrZero pose0 init0 = (false, j2, 1) := by
    unfold runIK
    show runIKGo aa0 1 rb0 svd0 cfgThrZero pose0 1 init0 0 = (false, j2, 1)
    rw [runIKGo_succ, hs]
    rfl
  have hrun2 : runIK aa0 1 rb0 svd0 cfgThrZero pose0 (lastColumn 1 0 params0) = (false, j2, 1) :=
    hrun
  refine ⟨rfl, ?_, ?_, ?_⟩
  · rw [hrun]
  · rw [hrun]
  · unfold filter
    rw [hrun2]
    rfl

/-- C4, amended: for every configuration with STRICTLY positive convergence
thresholds and positive iteration budget, if the forward-kinematics pose of
the initial joint vector equals the goal pose exactly (with orthonormal
rotation and identity-extraction angle 0), then the computed twist is the
zero vector, the IK Iterator converges in 0 iterations returning the
unchanged joint vector, and the filter reports filtered = true with the
waypoint matrix unchanged. -/
theorem c4_exact_pose (aa : AAExtract) (n T : ℕ) (rb : Robot n) (svdO : SvdOracle)
    (cfg : GoalCfg n) (goal : Pose) (P : Matrix (Fin n) (Fin (T + 1)) ℚ)
    (hthr : ∀ i, 0 < cfg.cartesian_convergence_thresholds i)
    (hmax : 1 ≤ cfg.max_iterations)
    (hfk : rb.fk (lastColumn n T P) = goal)
    (horth : goal.rotation.transpose * goal.rotation = 1)
    (haa : (aa 1).1 = 0) :
    (∀ i, computeTwist aa goal goal cfg.dof_nullity i = 0) ∧
    runIK aa n rb svdO cfg goal (lastColumn n T P) = (true, lastColumn n T P, 0) ∧
    filter aa n T rb svdO cfg goal P = { ret := true, filtered := true, parameters := P } := by
  have ht : ∀ i, computeTwist aa goal goal cfg.dof_nullity i = 0 :=
    fun i => computeTwist_self aa goal cfg.dof_nullity horth haa i
  have hconv : ikIteration aa n rb svdO cfg goal (lastColumn n T P) = .converged := by
    unfold ikIteration
    rw [hfk]
    rw [if_pos]
    intro i
    rw [ht i, abs_zero]
    exact hthr i
  have hrun : runIK aa n rb svdO cfg goal (lastColumn n T P) = (true, lastColumn n T P, 0) := by
    obtain ⟨m, hm⟩ := Nat.exists_eq_succ_of_ne_zero (by omega : cfg.max_iterations ≠ 0)
    unfold runIK
    rw [hm, runIKGo_succ, hconv]
  refine ⟨ht, hrun, ?_⟩
  unfold filter
  rw [hrun]
  rw [if_pos rfl]
  congr 1
  ext i j
  rw [Matrix.of_apply]
  by_cases hj : j = Fin.last T
  · subst hj
    rw [if_pos rfl]
    rfl
  · rw [if_neg hj]

/-- Witness for the amended C4 at a concrete exact-pose solve with strictly
positive thresholds. -/
theorem c4_witness :
    runIK aa0 1 rb0 svd0 cfgPos pose0 (lastColumn 1 0 params0) =
      (true, lastColumn 1 0 params0, 0) ∧
    filter aa0 1 0 rb0 svd0 cfgPos pose0 params0 =
      { ret := true, filtered := true, parameters := params0 } := by
  have h := c4_exact_pose aa0 1 0 rb0 svd0 cfgPos pose0 params0
    (fun _ => one_pos) le_rfl rfl (by simp [pose0]) rfl
  exact ⟨h.2.1, h.2.2⟩

/-- C2, counterexample: a configuration whose `constrained_dofs` passes the
size validation but whose sixth element is a double; the elementwise cast
throws there, `configure` returns false, yet the stored constraint mask has
already been overwritten for the first five entries — partial configuration
IS retained, refuting the claim. -/
theorem c2_counterexample :
    (configure st0 cBadElem).1 = false ∧ (configure st0 cBadElem).2 ≠ st0 :=
  ⟨rfl, by decide⟩

/-- C2, amended: a configuration failure detected by the combined
array-validation check (missing key, non-array value, or wrong array size)
retains nothing: the stored state is returned unchanged.  (Failures thrown by
an element cast after validation, by contrast, can retain the members already
written, as the counterexample shows.) -/
theorem c2_validation_preserves (st : GoalState) (c : XConfig) (h : arraysValid c = false) :
    configure st c = (false, st) := by
  unfold configure
  unfold arraysValid at h
  cases h1 : asArray c.constrained_dofs with
  | none =>
    simp only [h1]
  | some dofA =>
    cases h2 : asArray c.cartesian_convergence with
    | none =>
      simp only [h1, h2]
    | some thrA =>
      cases h3 : asArray c.joint_update_rates with
      | none =>
        simp only [h1, h2, h3]
      | some ratA =>
        simp only [h1, h2, h3] at h
        simp only [h1, h2, h3]
        by_cases hc : dofA.length < DOF_SIZE ∨ thrA.length < DOF_SIZE ∨ ratA.length = 0
        · rw [if_pos hc]
        · rw [if_neg hc] at h
          exact absurd h (by simp)

/-- Witness for the amended C2: an all-keys-missing configuration leaves the
stored state untouched. -/
theorem c2_witness : configure st0 cMissing = (false, st0) :=
  c2_validation_preserves st0 cMissing rfl

/-- C3: the validation check only rejects arrays SHORTER than 6
(`size() < DOF_SIZE`), so a 7-entry `constrained_dofs` array is accepted and
`configure` returns true, while the copy loop then writes 7 entries into the
6-element mask storage (an out-of-bounds write in the source, modelled here
as a dropped write): the claim (and the spec's required "exactly 6") is
violated by the code. -/
theorem c3_overlong_accepted :
    (configure st0 cOverlong).1 = true ∧
    (configure st0 cOverlong).2.dof_nullity = [1, 1, 1, 1, 1, 1] :=
  ⟨rfl, rfl⟩

end UCG
